import Mathlib

/-!
Verification development for the HomeLabSmith repository.

Shallow embedding of the Python services under src/, with theorems settling
the frozen claims about the Idle/Activity Lifecycle Controller.

Conventions used throughout:
- Timestamps and durations are integers.  The Python code works with
  datetime/timedelta values, whose arithmetic and comparisons are exact, so
  Int faithfully reflects them.  For the inference service (thresholds given
  in minutes) the unit is one minute; for the nginx endpoint activity
  monitor (intervals of 1 and 5 minutes built via timedelta) the unit is one
  second, so the intervals are 60 and 300.
- Python dicts keyed by strings are embedded as functions of type
  String to Option, updated pointwise.
- External effects (subprocess calls, HTTP requests, WoL packets) are
  embedded as data in the result: the theorems talk about whether the
  effect was requested, with the outcome of the external world passed in
  as a parameter where the code branches on it.
-/

namespace InferenceService

/-- Monitoring configuration of src/inference-service/inference_service.py
(the monitoring block of load_config).  Threshold durations in minutes. -/
structure MonitoringConfig where
  active_threshold_minutes : Int
  idle_threshold_minutes : Int
deriving DecidableEq

/-- Embeds load_config (inference_service.py lines 33-51): when no config
file exists the defaults are returned, otherwise the file content is
returned verbatim.  No validation of any kind is applied to the values. -/
def load_config (fileConfig : Option MonitoringConfig) : MonitoringConfig :=
  fileConfig.getD { active_threshold_minutes := 10, idle_threshold_minutes := 10 }

/-- The global last_activity_timestamps dict (line 56): model name to
timestamp of last reported activity. -/
def Ledger : Type := String → Option Int

/-- Embeds update_last_activity (lines 133-135): the entry for the model is
overwritten with the current wall-clock time, passed here as now. -/
def update_last_activity (ledger : Ledger) (model_name : String) (now : Int) : Ledger :=
  fun m => if m = model_name then some now else ledger m

/-- Embeds get_last_activity (lines 137-142): the recorded timestamp, or
server_start_time when the model was never recorded. -/
def get_last_activity (ledger : Ledger) (server_start_time : Int) (model_name : String) : Int :=
  (ledger model_name).getD server_start_time

/-- Embeds is_model_active (lines 144-151): now minus last activity is at
most the active threshold.  The Python guard for a missing timestamp is
unreachable because get_last_activity always returns a datetime. -/
def is_model_active (cfg : MonitoringConfig) (ledger : Ledger) (server_start_time : Int)
    (now : Int) (model_name : String) : Bool :=
  decide (now - get_last_activity ledger server_start_time model_name ≤
    cfg.active_threshold_minutes)

/-- Embeds is_model_idle (lines 153-161): now minus last activity strictly
exceeds the idle threshold.  As in is_model_active, the missing-timestamp
branch is unreachable. -/
def is_model_idle (cfg : MonitoringConfig) (ledger : Ledger) (server_start_time : Int)
    (now : Int) (model_name : String) : Bool :=
  decide (cfg.idle_threshold_minutes <
    now - get_last_activity ledger server_start_time model_name)

/-- The whole-system idle threshold used by check_and_shutdown_idle_models
(line 219): three times the per-model idle threshold.  It is derived, not
an independent configuration entry. -/
def system_idle_threshold (cfg : MonitoringConfig) : Int :=
  cfg.idle_threshold_minutes * 3

/-- Result of one sweep of check_and_shutdown_idle_models: whether the
whole-system shutdown command was issued, and which models were issued an
individual stop. -/
structure SweepResult where
  system_shutdown : Bool
  stopped_models : List String
deriving DecidableEq

/-- Embeds the loop of check_and_shutdown_idle_models (lines 221-230): walks
the available models; on the first non-idle model it stops with False (the
break), otherwise it accumulates the latest activity timestamp among the
models seen so far, exactly as the Python loop does. -/
def scan_idle (cfg : MonitoringConfig) (ledger : Ledger) (server_start_time now : Int) :
    List String → Option Int → Bool × Option Int
  | [], latest => (true, latest)
  | m :: rest, latest =>
    if is_model_idle cfg ledger server_start_time now m then
      let last_activity := get_last_activity ledger server_start_time m
      let latest' := match latest with
        | none => some last_activity
        | some a => if a < last_activity then some last_activity else some a
      scan_idle cfg ledger server_start_time now rest latest'
    else (false, latest)

/-- Embeds check_and_shutdown_idle_models (lines 203-249).  If every
available model is idle and the most recent activity among them is older
than three times the idle threshold, the system shutdown is executed and
the sweep returns without any individual stop; otherwise each running model
that is available and idle is stopped individually. -/
def check_and_shutdown_idle_models (cfg : MonitoringConfig)
    (available_model_names running_models : List String)
    (ledger : Ledger) (server_start_time now : Int) : SweepResult :=
  let idle_threshold := cfg.idle_threshold_minutes * 3
  let scanned := scan_idle cfg ledger server_start_time now available_model_names none
  let all_models_idle := scanned.1
  let latest_activity := scanned.2
  match all_models_idle, latest_activity with
  | true, some latest =>
    if idle_threshold < now - latest then
      { system_shutdown := true, stopped_models := [] }
    else
      { system_shutdown := false,
        stopped_models := running_models.filter
          (fun m => available_model_names.contains m &&
            is_model_idle cfg ledger server_start_time now m) }
  | _, _ =>
    { system_shutdown := false,
      stopped_models := running_models.filter
        (fun m => available_model_names.contains m &&
          is_model_idle cfg ledger server_start_time now m) }

end InferenceService

namespace InferenceService

/-- A ledger with no recorded activity at all. -/
def emptyLedger : Ledger := fun _ => none

/-- The configuration with both thresholds equal to 10 minutes, as in the
defaults of load_config. -/
def cfg10 : MonitoringConfig :=
  { active_threshold_minutes := 10, idle_threshold_minutes := 10 }

end InferenceService

namespace ModelMonitor

/-- Monitoring configuration of src/model-monitor-service/model_monitor.py
(the monitoring block of load_config; defaults idle 30, active 10). -/
structure MonitoringConfig where
  active_threshold_minutes : Int
  idle_threshold_minutes : Int
deriving DecidableEq

/-- The global last_activity_timestamps dict of model_monitor.py (line 41). -/
def Ledger : Type := String → Option Int

/-- Embeds get_last_activity (model_monitor.py lines 75-77): the recorded
timestamp or None — unlike the inference service there is no server-start
default. -/
def get_last_activity (ledger : Ledger) (model_name : String) : Option Int :=
  ledger model_name

/-- Embeds is_model_active (model_monitor.py lines 79-86): False when no
activity was ever recorded. -/
def is_model_active (cfg : MonitoringConfig) (ledger : Ledger) (now : Int)
    (model_name : String) : Bool :=
  match get_last_activity ledger model_name with
  | none => false
  | some last_activity => decide (now - last_activity ≤ cfg.active_threshold_minutes)

/-- Embeds is_model_idle (model_monitor.py lines 88-96): True when no
activity was ever recorded, regardless of how recently the service
started. -/
def is_model_idle (cfg : MonitoringConfig) (ledger : Ledger) (now : Int)
    (model_name : String) : Bool :=
  match get_last_activity ledger model_name with
  | none => true
  | some last_activity => decide (cfg.idle_threshold_minutes < now - last_activity)

/-- A ledger with no recorded activity at all. -/
def emptyLedger : Ledger := fun _ => none

end ModelMonitor

namespace InferenceService

/-- If the scan of check_and_shutdown_idle_models completes with True (no
break), every scanned model is idle. -/
theorem scan_idle_all (cfg : MonitoringConfig) (ledger : Ledger)
    (server_start_time now : Int) (ms : List String) :
    ∀ (acc : Option Int),
      (scan_idle cfg ledger server_start_time now ms acc).1 = true →
      ∀ m ∈ ms, is_model_idle cfg ledger server_start_time now m = true := by
  induction ms with
  | nil => intro acc _ m hm; cases hm
  | cons m0 rest ih =>
    intro acc h m hm
    rw [scan_idle] at h
    by_cases hid : is_model_idle cfg ledger server_start_time now m0 = true
    · simp only [hid, if_true] at h
      rcases List.mem_cons.mp hm with rfl | hm'
      · exact hid
      · exact ih _ h m hm'
    · simp only [if_neg hid] at h
      exact absurd h Bool.false_ne_true

/-- If the scan completes with True and latest timestamp mx, then mx is an
upper bound of the last activities of the scanned models, is attained by
one of them (or was already the accumulator), and dominates the
accumulator. -/
theorem scan_idle_latest (cfg : MonitoringConfig) (ledger : Ledger)
    (server_start_time now : Int) (ms : List String) :
    ∀ (acc : Option Int) (mx : Int),
      (scan_idle cfg ledger server_start_time now ms acc).1 = true →
      (scan_idle cfg ledger server_start_time now ms acc).2 = some mx →
      (∀ m ∈ ms, get_last_activity ledger server_start_time m ≤ mx) ∧
      ((∃ m ∈ ms, get_last_activity ledger server_start_time m = mx) ∨ acc = some mx) ∧
      (∀ a, acc = some a → a ≤ mx) := by
  induction ms with
  | nil =>
    intro acc mx _ h2
    refine ⟨(by intro m hm; cases hm), Or.inr h2, ?_⟩
    intro a ha
    rw [show (scan_idle cfg ledger server_start_time now [] acc).2 = acc from rfl] at h2
    rw [ha] at h2
    injection h2 with h2
    omega
  | cons m0 rest ih =>
    intro acc mx h1 h2
    rw [scan_idle] at h1 h2
    by_cases hid : is_model_idle cfg ledger server_start_time now m0 = true
    · simp only [hid, if_true] at h1 h2
      obtain ⟨hub, hmem, hacc⟩ := ih _ mx h1 h2
      have hla_le : get_last_activity ledger server_start_time m0 ≤ mx := by
        cases acc with
        | none => exact hacc _ rfl
        | some a =>
          by_cases hc : a < get_last_activity ledger server_start_time m0
          · exact hacc _ (by simp [hc])
          · have := hacc a (by simp [hc])
            omega
      refine ⟨?_, ?_, ?_⟩
      · intro m hm
        rcases List.mem_cons.mp hm with rfl | hm'
        · exact hla_le
        · exact hub m hm'
      · rcases hmem with ⟨m, hm, hmx⟩ | hacc'
        · exact Or.inl ⟨m, List.mem_cons_of_mem _ hm, hmx⟩
        · cases acc with
          | none =>
            left
            exact ⟨m0, List.mem_cons_self m0 rest, by injection hacc'⟩
          | some a =>
            by_cases hc : a < get_last_activity ledger server_start_time m0
            · left
              refine ⟨m0, List.mem_cons_self m0 rest, ?_⟩
              simp only [hc, if_pos] at hacc'
              injection hacc'
            · right
              simp only [if_neg hc] at hacc'
              exact hacc'
      · intro a0 ha0
        subst ha0
        by_cases hc : a0 < get_last_activity ledger server_start_time m0
        · omega
        · exact hacc a0 (by simp [hc])
    · simp only [if_neg hid] at h1
      exact absurd h1 Bool.false_ne_true

/-- The configuration whose derived whole-system threshold is 15 minutes
(idle threshold 5 minutes, since the code computes the system threshold as
three times the idle threshold). -/
def cfg5 : MonitoringConfig :=
  { active_threshold_minutes := 5, idle_threshold_minutes := 5 }

/-- The ledger of the cascade scenario evaluated at time 100: resources a,
b, c last seen 5, 20 and 40 minutes before the sweep. -/
def scenarioLedger : Ledger := fun m =>
  if m = "a" then some 95 else if m = "b" then some 80 else
  if m = "c" then some 60 else none

end InferenceService

/-- C4 counterexample.  The claim describes a cycle in which three
resources are all classified Idle while the system threshold is 15
minutes.  The code derives the system threshold as three times the idle
threshold, so a 15-minute system threshold forces a 5-minute idle
threshold — and under a 5-minute idle threshold the resource last seen 5
minutes before the sweep is not classified Idle, so the premise of the
scenario is false on the code (its conclusion, that no shutdown fires,
does hold, and is part of the amended theorem). -/
theorem C4_counterexample :
    InferenceService.system_idle_threshold InferenceService.cfg5 = 15 ∧
    InferenceService.is_model_idle InferenceService.cfg5
      InferenceService.scenarioLedger 0 100 "a" = false := by
  constructor <;> decide

/-- C4 amended: the sweep triggers whole-system shutdown only when every
available resource is classified Idle and now minus the maximum lastSeen
among them exceeds the derived system threshold (three times the idle
threshold); with three resources last seen 5, 20 and 40 minutes ago and
the system threshold equal to 15 minutes (idle threshold 5 minutes, under
which the first resource is not in fact Idle), no whole-system shutdown
fires that cycle; and whenever the whole-system shutdown fires, the sweep
performs no individual per-resource stops. -/
theorem C4_cascade :
    (∀ (cfg : InferenceService.MonitoringConfig)
      (available running : List String) (ledger : InferenceService.Ledger)
      (server_start_time now : Int),
      (InferenceService.check_and_shutdown_idle_models cfg available running
        ledger server_start_time now).system_shutdown = true →
      (∀ m ∈ available,
        InferenceService.is_model_idle cfg ledger server_start_time now m = true) ∧
      (∃ mx, (∀ m ∈ available,
          InferenceService.get_last_activity ledger server_start_time m ≤ mx) ∧
        (∃ m ∈ available,
          InferenceService.get_last_activity ledger server_start_time m = mx) ∧
        InferenceService.system_idle_threshold cfg < now - mx) ∧
      (InferenceService.check_and_shutdown_idle_models cfg available running
        ledger server_start_time now).stopped_models = []) ∧
    (InferenceService.check_and_shutdown_idle_models InferenceService.cfg5
      ["a", "b", "c"] ["a", "b", "c"] InferenceService.scenarioLedger 0
      100).system_shutdown = false := by
  constructor
  · intro cfg available running ledger server_start_time now h
    rw [InferenceService.check_and_shutdown_idle_models] at h ⊢
    rcases hscan : InferenceService.scan_idle cfg ledger server_start_time now
      available none with ⟨all_idle, latest⟩
    rw [hscan] at h
    cases all_idle with
    | false => exact absurd h Bool.false_ne_true
    | true =>
      cases latest with
      | none => exact absurd h Bool.false_ne_true
      | some lat =>
        by_cases hlt : cfg.idle_threshold_minutes * 3 < now - lat
        · have h1 : (InferenceService.scan_idle cfg ledger server_start_time now
              available none).1 = true := by rw [hscan]
          have h2 : (InferenceService.scan_idle cfg ledger server_start_time now
              available none).2 = some lat := by rw [hscan]
          obtain ⟨hub, hmem, _⟩ :=
            InferenceService.scan_idle_latest cfg ledger server_start_time now
              available none lat h1 h2
          refine ⟨InferenceService.scan_idle_all cfg ledger server_start_time now
            available none h1, ⟨lat, hub, ?_, hlt⟩, ?_⟩
          · rcases hmem with hm | hnone
            · exact hm
            · cases hnone
          · dsimp only
            rw [if_pos hlt]
        · dsimp only at h
          rw [if_neg hlt] at h
          exact absurd h Bool.false_ne_true
  · decide

/-- C4 witness: the only-if direction of the cascade theorem applied at a
concrete sweep where the whole-system shutdown does fire (one model, last
seen 100 minutes before the sweep, idle threshold 5 minutes). -/
theorem C4_cascade_witness :
    (∀ m ∈ ["a"],
      InferenceService.is_model_idle InferenceService.cfg5
        (fun m0 => if m0 = "a" then some 0 else none) 0 100 m = true) ∧
    (∃ mx, (∀ m ∈ ["a"],
        InferenceService.get_last_activity
          (fun m0 => if m0 = "a" then some 0 else none) 0 m ≤ mx) ∧
      (∃ m ∈ ["a"],
        InferenceService.get_last_activity
          (fun m0 => if m0 = "a" then some 0 else none) 0 m = mx) ∧
      InferenceService.system_idle_threshold InferenceService.cfg5 < 100 - mx) ∧
    (InferenceService.check_and_shutdown_idle_models InferenceService.cfg5
      ["a"] [] (fun m0 => if m0 = "a" then some 0 else none) 0
      100).stopped_models = [] :=
  C4_cascade.1 InferenceService.cfg5 ["a"] []
    (fun m0 => if m0 = "a" then some 0 else none) 0 100 (by decide)

/-- C8 counterexample.  The claim says the whole-system threshold is an
independently configured duration and that configurations always satisfy
activeThreshold at most idleThreshold, strictly below systemIdleThreshold.
The code accepts, without any validation, a configuration whose active
threshold (20) exceeds its idle threshold (10); and the system threshold is
not an independent configuration entry — it is computed as three times the
idle threshold (here 30, so in particular it cannot be set to 15 while the
idle threshold is 10, as the cascade scenario of the spec assumes). -/
theorem C8_counterexample :
    InferenceService.load_config
      (some { active_threshold_minutes := 20, idle_threshold_minutes := 10 })
      = { active_threshold_minutes := 20, idle_threshold_minutes := 10 } ∧
    ¬ ((20 : Int) ≤ 10) ∧
    InferenceService.system_idle_threshold
      { active_threshold_minutes := 20, idle_threshold_minutes := 10 } = 30 :=
  ⟨rfl, by decide, rfl⟩

/-- C8 amended: the whole-system threshold applied by the idle sweep is
derived, equal to three times the idle threshold, so it strictly exceeds
the idle threshold exactly when the idle threshold is positive; the code
enforces no ordering between the active and idle thresholds (any
configuration is accepted as loaded), though the defaults are equal at 10
minutes. -/
theorem C8_derived_threshold :
    (∀ cfg : InferenceService.MonitoringConfig,
      InferenceService.system_idle_threshold cfg = 3 * cfg.idle_threshold_minutes) ∧
    (∀ cfg : InferenceService.MonitoringConfig,
      0 < cfg.idle_threshold_minutes →
      cfg.idle_threshold_minutes < InferenceService.system_idle_threshold cfg) ∧
    (∀ mc : InferenceService.MonitoringConfig,
      InferenceService.load_config (some mc) = mc) ∧
    InferenceService.load_config none
      = { active_threshold_minutes := 10, idle_threshold_minutes := 10 } := by
  refine ⟨?_, ?_, ?_, rfl⟩
  · intro cfg
    simp only [InferenceService.system_idle_threshold]
    ring
  · intro cfg h
    simp only [InferenceService.system_idle_threshold]
    omega
  · intro mc
    rfl

/-- C8 witness: the derived-threshold theorem applied to the default
configuration, whose idle threshold 10 is positive. -/
theorem C8_derived_threshold_witness :
    InferenceService.cfg10.idle_threshold_minutes <
      InferenceService.system_idle_threshold InferenceService.cfg10 :=
  C8_derived_threshold.2.1 InferenceService.cfg10 (by decide)

namespace InferenceService

/-- Substring test on character lists, the semantics of the Python
membership test for strings: the pattern occurs contiguously somewhere in
the text. -/
def has_substring : List Char → List Char → Bool
  | pat, [] => decide (pat = [])
  | pat, c :: rest =>
    decide (List.take pat.length (c :: rest) = pat) || has_substring pat rest

/-- The model-name validation of systemctl_action (inference_service.py
line 302): the name is falsy (empty), or contains a slash, or contains two
consecutive dots. -/
def invalid_model_name (model_name : String) : Bool :=
  decide (model_name = "") || has_substring ['/'] model_name.data ||
    has_substring ['.', '.'] model_name.data

/-- The valid_actions list of systemctl_action (line 297). -/
def valid_actions : List String := ["start", "stop", "restart"]

/-- A subprocess invocation of systemctl performed by systemctl_action. -/
structure SystemctlInvocation where
  action : String
  unit : String
deriving DecidableEq

/-- Result of systemctl_action: which external command was invoked, if any,
and the (success, message) pair the Python function returns. -/
structure ActionResult where
  invoked : Option SystemctlInvocation
  ok : Bool
  message : String
deriving DecidableEq

/-- Embeds systemctl_action (inference_service.py lines 293-318).  The
action and model name are validated before any subprocess call; the
outcome of the subprocess (returncode zero, stderr text) is passed in as
parameters since it belongs to the external executor. -/
def systemctl_action (action model_name : String) (returncode_zero : Bool)
    (stderr : String) : ActionResult :=
  if ¬ valid_actions.contains action then
    { invoked := none, ok := false,
      message := "Invalid action. Must be one of: start, stop, restart" }
  else if invalid_model_name model_name then
    { invoked := none, ok := false, message := "Invalid model name" }
  else if returncode_zero then
    { invoked := some { action := action, unit := "model@" ++ model_name },
      ok := true,
      message := "Successfully " ++ action ++ "ed model " ++ model_name }
  else
    { invoked := some { action := action, unit := "model@" ++ model_name },
      ok := false,
      message := "Failed to " ++ action ++ " model " ++ model_name ++ ": " ++ stderr }

/-- Embeds the start endpoint handler (lines 350-371): it delegates to
systemctl_action with the fixed action start. -/
def start_model (model_name : String) (returncode_zero : Bool) (stderr : String) :
    ActionResult :=
  systemctl_action "start" model_name returncode_zero stderr

/-- Embeds the stop endpoint handler (lines 373-394). -/
def stop_model (model_name : String) (returncode_zero : Bool) (stderr : String) :
    ActionResult :=
  systemctl_action "stop" model_name returncode_zero stderr

/-- Embeds the restart endpoint handler (lines 396-417). -/
def restart_model (model_name : String) (returncode_zero : Bool) (stderr : String) :
    ActionResult :=
  systemctl_action "restart" model_name returncode_zero stderr

end InferenceService

/-- C9: systemctl_action rejects any action outside start, stop, restart
and any model name that is empty or contains a slash or two consecutive
dots, returning failure without invoking systemctl; and whenever it does
invoke systemctl (also via the start, stop and restart endpoint handlers),
the action was valid and the model name passed validation. -/
theorem C9_systemctl_validation :
    (∀ (action model_name : String) (rc : Bool) (stderr : String),
      InferenceService.valid_actions.contains action = false →
      (InferenceService.systemctl_action action model_name rc stderr).ok = false ∧
      (InferenceService.systemctl_action action model_name rc stderr).invoked = none) ∧
    (∀ (action model_name : String) (rc : Bool) (stderr : String),
      InferenceService.invalid_model_name model_name = true →
      (InferenceService.systemctl_action action model_name rc stderr).ok = false ∧
      (InferenceService.systemctl_action action model_name rc stderr).invoked = none) ∧
    (∀ (action model_name : String) (rc : Bool) (stderr : String)
      (inv : InferenceService.SystemctlInvocation),
      (InferenceService.systemctl_action action model_name rc stderr).invoked = some inv →
      InferenceService.valid_actions.contains action = true ∧
      InferenceService.invalid_model_name model_name = false ∧
      inv = { action := action, unit := "model@" ++ model_name }) ∧
    (∀ (model_name : String) (rc : Bool) (stderr : String),
      InferenceService.invalid_model_name model_name = true →
      (InferenceService.start_model model_name rc stderr).invoked = none ∧
      (InferenceService.stop_model model_name rc stderr).invoked = none ∧
      (InferenceService.restart_model model_name rc stderr).invoked = none) := by
  have notc : ∀ b : Bool, b = false → ¬ (b = true) := by
    intro b hb hc
    rw [hb] at hc
    exact Bool.noConfusion hc
  have hbad : ∀ (action model_name : String) (rc : Bool) (stderr : String),
      InferenceService.invalid_model_name model_name = true →
      (InferenceService.systemctl_action action model_name rc stderr).ok = false ∧
      (InferenceService.systemctl_action action model_name rc stderr).invoked = none := by
    intro action model_name rc stderr h
    rw [InferenceService.systemctl_action]
    by_cases ha : InferenceService.valid_actions.contains action = true
    · rw [if_neg (not_not_intro ha), if_pos h]
      exact ⟨rfl, rfl⟩
    · rw [if_pos ha]
      exact ⟨rfl, rfl⟩
  refine ⟨?_, hbad, ?_, ?_⟩
  · intro action model_name rc stderr h
    rw [InferenceService.systemctl_action, if_pos (notc _ h)]
    exact ⟨rfl, rfl⟩
  · intro action model_name rc stderr inv h
    rw [InferenceService.systemctl_action] at h
    by_cases ha : InferenceService.valid_actions.contains action = true
    · rw [if_neg (not_not_intro ha)] at h
      by_cases hn : InferenceService.invalid_model_name model_name = true
      · rw [if_pos hn] at h
        cases h
      · rw [if_neg hn] at h
        refine ⟨ha, by simpa using hn, ?_⟩
        by_cases hrc : rc = true
        · rw [if_pos hrc] at h
          injection h with h
          exact h.symm
        · rw [if_neg hrc] at h
          injection h with h
          exact h.symm
    · rw [if_pos ha] at h
      cases h
  · intro model_name rc stderr h
    exact ⟨(hbad "start" model_name rc stderr h).2, (hbad "stop" model_name rc stderr h).2,
      (hbad "restart" model_name rc stderr h).2⟩

/-- C9 witness: the validation theorem applied to the invalid action
enable and the invalid model names, with a concrete subprocess outcome. -/
theorem C9_systemctl_validation_witness :
    (InferenceService.systemctl_action "enable" "modelA" true "").invoked = none ∧
    (InferenceService.systemctl_action "start" "a/b" true "").invoked = none ∧
    (InferenceService.start_model "../etc" true "").invoked = none :=
  ⟨(C9_systemctl_validation.1 "enable" "modelA" true "" (by decide)).2,
    (C9_systemctl_validation.2.1 "start" "a/b" true "" (by decide)).2,
    (C9_systemctl_validation.2.2.2 "../etc" true "" (by decide)).1⟩

namespace ShutdownService

/-- A scheduled-shutdown entry as stored by schedule_shutdown
(src/shutdown-service/shutdown_service.py lines 101-125): an ISO-format
scheduled time (compared as a string, exactly as the Python sort key
does), the requested delay, and the creation time. -/
structure ShutdownEntry where
  scheduled_time : String
  minutes_from_now : Int
  created_at : String
deriving DecidableEq

/-- The sort key comparison of get_next_shutdown: entries ordered by their
scheduled_time string. -/
def sched_le (a b : ShutdownEntry) : Bool :=
  decide (a.scheduled_time ≤ b.scheduled_time)

/-- Embeds get_next_shutdown (shutdown_service.py lines 52-60): None when
nothing is scheduled, otherwise the first element of the list stably
sorted by scheduled_time. -/
def get_next_shutdown (shutdowns : List ShutdownEntry) : Option ShutdownEntry :=
  if shutdowns.isEmpty then none
  else (shutdowns.mergeSort sched_le).head?

/-- Embeds cancel_shutdown (shutdown_service.py lines 67-76): pops the
first entry in stored (insertion) order, returning it together with the
remaining list; returns none (Python False) when nothing is scheduled. -/
def cancel_shutdown : List ShutdownEntry → Option ShutdownEntry × List ShutdownEntry
  | [] => (none, [])
  | e :: rest => (some e, rest)

/-- The scheduled-time comparison is transitive. -/
theorem sched_le_trans : ∀ a b c : ShutdownEntry,
    sched_le a b → sched_le b c → sched_le a c := by
  intro a b c hab hbc
  simp only [sched_le, decide_eq_true_iff] at hab hbc ⊢
  exact le_trans hab hbc

/-- The scheduled-time comparison is total. -/
theorem sched_le_total : ∀ a b : ShutdownEntry,
    (sched_le a b || sched_le b a) = true := by
  intro a b
  simp only [sched_le]
  by_cases hab : a.scheduled_time ≤ b.scheduled_time
  · simp [hab]
  · simp [le_of_not_le hab]

end ShutdownService

/-- C10: get_next_shutdown reports the entry with the minimum
scheduled_time while cancel_shutdown removes the first entry in stored
order, so whenever some later-stored entry is scheduled strictly earlier
than the first-stored entry, the entry removed by cancel_shutdown differs
from the entry reported by get_next_shutdown. -/
theorem C10_cancel_vs_next (e0 : ShutdownService.ShutdownEntry)
    (rest : List ShutdownService.ShutdownEntry)
    (h : ∃ e ∈ rest, e.scheduled_time < e0.scheduled_time) :
    (ShutdownService.cancel_shutdown (e0 :: rest)).1 = some e0 ∧
    ∃ x, ShutdownService.get_next_shutdown (e0 :: rest) = some x ∧ x ≠ e0 ∧
      x.scheduled_time < e0.scheduled_time := by
  refine ⟨rfl, ?_⟩
  obtain ⟨e, he, helt⟩ := h
  have hne : ((e0 :: rest).mergeSort ShutdownService.sched_le) ≠ [] := by
    intro hnil
    have hlenms : ((e0 :: rest).mergeSort ShutdownService.sched_le).length
        = (e0 :: rest).length := List.length_mergeSort (e0 :: rest)
    rw [hnil] at hlenms
    simp at hlenms
  obtain ⟨x, t, hxt⟩ :
      ∃ x t, (e0 :: rest).mergeSort ShutdownService.sched_le = x :: t := by
    cases hc : (e0 :: rest).mergeSort ShutdownService.sched_le with
    | nil => exact absurd hc hne
    | cons x t => exact ⟨x, t, rfl⟩
  have hsorted := List.sorted_mergeSort
    ShutdownService.sched_le_trans ShutdownService.sched_le_total (e0 :: rest)
  rw [hxt] at hsorted
  have hx_le : ∀ y ∈ t, ShutdownService.sched_le x y = true :=
    (List.pairwise_cons.mp hsorted).1
  have h: x.scheduled_time < e0.scheduled_time := by
    have hemem : e ∈ x :: t := by
      rw [← hxt]
      exact List.mem_mergeSort.mpr (List.mem_cons_of_mem _ he)
    rcases List.mem_cons.mp hemem with rfl | het
    · exact helt
    · have := hx_le e het
      simp only [ShutdownService.sched_le, decide_eq_true_iff] at this
      exact lt_of_le_of_lt this helt
  refine ⟨x, ?_, ?_, h⟩
  · rw [ShutdownService.get_next_shutdown, if_neg (by simp), hxt]
    rfl
  · intro hxe
    rw [hxe] at h
    exact lt_irrefl _ h

/-- C10 witness: a concrete two-entry schedule whose first-stored entry is
scheduled later than the second: cancel removes the first-stored entry
while get_next reports the other. -/
theorem C10_cancel_vs_next_witness :
    (ShutdownService.cancel_shutdown
      [{ scheduled_time := "b", minutes_from_now := 2, created_at := "t0" },
       { scheduled_time := "a", minutes_from_now := 1, created_at := "t1" }]).1
      = some { scheduled_time := "b", minutes_from_now := 2, created_at := "t0" } ∧
    ∃ x, ShutdownService.get_next_shutdown
        [{ scheduled_time := "b", minutes_from_now := 2, created_at := "t0" },
         { scheduled_time := "a", minutes_from_now := 1, created_at := "t1" }]
        = some x ∧
      x ≠ { scheduled_time := "b", minutes_from_now := 2, created_at := "t0" } ∧
      x.scheduled_time < "b" :=
  C10_cancel_vs_next
    { scheduled_time := "b", minutes_from_now := 2, created_at := "t0" }
    [{ scheduled_time := "a", minutes_from_now := 1, created_at := "t1" }]
    ⟨{ scheduled_time := "a", minutes_from_now := 1, created_at := "t1" },
      List.mem_singleton_self _,
      (by rw [String.lt_iff_toList_lt]; decide : ("a" : String) < "b")⟩

namespace IdleApproot

/-- A configuration rule of the idle approot notification service
(src/idle-approot-notification-service/idle_approot_notification.py,
validated in load_config): a regex pattern and an endpoint URL. -/
structure Rule where
  pattern : String
  endpoint : String
deriving DecidableEq

/-- A successfully parsed nginx access-log line, the output shape of
parse_nginx_log_line (lines 94-128); only the fields the service reads
downstream are kept. -/
structure ParsedLine where
  uri : String
  timestamp : Int
  status : Int
deriving DecidableEq

/-- Embeds should_check_endpoint (idle_approot_notification.py lines
130-144; the Python name carries a leading underscore): the first rule
whose pattern matches the URI.  The regex search is an external primitive,
passed in as the function search. -/
def should_check_endpoint (config : List Rule) (search : String → String → Bool)
    (uri : String) : Option Rule :=
  config.find? (fun rule => search rule.pattern uri)

/-- Embeds process_log_line (idle_approot_notification.py lines 172-194;
Python name with a leading underscore).  An unparsable line or an
unmatched URI leaves the state untouched; otherwise the last-seen entry
for the matched pattern is overwritten with the timestamp parsed from the
line. -/
def process_log_line (config : List Rule) (search : String → String → Bool)
    (last_seen_timestamps : String → Option Int) (parsed : Option ParsedLine) :
    String → Option Int :=
  match parsed with
  | none => last_seen_timestamps
  | some p =>
    match should_check_endpoint config search p.uri with
    | none => last_seen_timestamps
    | some rule =>
      fun k => if k = rule.pattern then some p.timestamp else last_seen_timestamps k

/-- The rule set and matcher of the record counterexample: one rule whose
pattern equals the URI it matches. -/
def oneRule : List Rule := [{ pattern := "A", endpoint := "http://e" }]

end IdleApproot

/-- C2 counterexample.  The claim says recording timestamps t1 then t2 for
the same resource yields lastSeen equal to max(t1, t2) in either arrival
order.  The code overwrites the entry unconditionally, so recording 10 and
then the out-of-order older timestamp 5 leaves lastSeen at 5, moving time
backward. -/
theorem C2_counterexample :
    IdleApproot.process_log_line IdleApproot.oneRule (fun p u => p == u)
      (IdleApproot.process_log_line IdleApproot.oneRule (fun p u => p == u)
        (fun _ => none)
        (some { uri := "A", timestamp := 10, status := 200 }))
      (some { uri := "A", timestamp := 5, status := 200 }) "A" = some 5 ∧
    some (5 : Int) ≠ some (max 10 5) := by
  constructor
  · decide
  · decide

/-- C2 amended: the ledger update is last-write-wins, not max: after
recording t1 then t2 for the same matched pattern, lastSeen equals t2 (the
most recently arrived timestamp), regardless of whether t2 is older than
t1.  Likewise the inference-service ledger entry is overwritten with the
report time.  The claimed max semantics holds only when arrival order
agrees with timestamp order. -/
theorem C2_record_last_write_wins :
    (∀ (config : List IdleApproot.Rule) (search : String → String → Bool)
      (st : String → Option Int) (p1 p2 : IdleApproot.ParsedLine)
      (rule : IdleApproot.Rule),
      IdleApproot.should_check_endpoint config search p1.uri = some rule →
      IdleApproot.should_check_endpoint config search p2.uri = some rule →
      IdleApproot.process_log_line config search
        (IdleApproot.process_log_line config search st (some p1)) (some p2)
        rule.pattern = some p2.timestamp) ∧
    (∀ (ledger : InferenceService.Ledger) (model_name : String) (t1 t2 : Int),
      InferenceService.update_last_activity
        (InferenceService.update_last_activity ledger model_name t1) model_name t2
        model_name = some t2) := by
  constructor
  · intro config search st p1 p2 rule h1 h2
    rw [IdleApproot.process_log_line, IdleApproot.process_log_line, h1, h2]
    simp
  · intro ledger model_name t1 t2
    rw [InferenceService.update_last_activity]
    simp

/-- C2 witness: the last-write-wins theorem applied to the concrete
one-rule configuration, recording 10 and then 5. -/
theorem C2_record_last_write_wins_witness :
    IdleApproot.process_log_line IdleApproot.oneRule (fun p u => p == u)
      (IdleApproot.process_log_line IdleApproot.oneRule (fun p u => p == u)
        (fun _ => none)
        (some { uri := "A", timestamp := 10, status := 200 }))
      (some { uri := "A", timestamp := 5, status := 200 }) "A" = some 5 :=
  C2_record_last_write_wins.1 IdleApproot.oneRule (fun p u => p == u)
    (fun _ => none) { uri := "A", timestamp := 10, status := 200 }
    { uri := "A", timestamp := 5, status := 200 }
    { pattern := "A", endpoint := "http://e" } (by decide) (by decide)

namespace NginxMonitor

/-- A configuration rule of the nginx endpoint activity monitor
(src/nginx-endpoint-activity-monitor/nginx_endpoint_activity_monitor.py,
validated in load_config): a regex pattern, a default endpoint, and
optional status-code-specific endpoints (the endpoint_NNN keys read by
get_endpoint_for_status). -/
structure Rule where
  pattern : String
  endpoint : String
  status_endpoints : Int → Option String

/-- A successfully parsed access-log line, the output shape of
parse_nginx_log_line (lines 133-167); only the fields read downstream are
kept.  Note that process_log_line uses the wall clock, not the parsed
timestamp, so no timestamp field is needed here. -/
structure ParsedLine where
  uri : String
  status : Int
deriving DecidableEq

/-- Embeds should_check_endpoint (lines 169-183; Python name with a
leading underscore): first matching rule, with the regex search passed in
as the external primitive search. -/
def should_check_endpoint (config : List Rule) (search : String → String → Bool)
    (uri : String) : Option Rule :=
  config.find? (fun rule => search rule.pattern uri)

/-- Embeds get_endpoint_for_status (lines 185-202): the status-specific
endpoint when the rule has one for this status code, else the default
endpoint. -/
def get_endpoint_for_status (rule : Rule) (status_code : Int) : String :=
  match rule.status_endpoints status_code with
  | some url => url
  | none => rule.endpoint

/-- Outcome of the HTTP POST performed by check_endpoint, as seen by the
code: a response with some status code, a timeout, or a client (network)
error. -/
inductive HttpOutcome where
  | response (status : Int)
  | timeout
  | clientError
deriving DecidableEq

/-- Embeds check_endpoint (lines 204-242; Python name with a leading
underscore): returns the URL it posted to and the boolean the function
returns.  A 200 response returns True; a non-200 response ALSO returns
True (lines 233-235); only a timeout or a client error returns False. -/
def check_endpoint (rule : Rule) (status_code : Option Int) (outcome : HttpOutcome) :
    String × Bool :=
  let endpoint_url := match status_code with
    | none => rule.endpoint
    | some s => get_endpoint_for_status rule s
  match outcome with
  | .response s => if s = 200 then (endpoint_url, true) else (endpoint_url, true)
  | .timeout => (endpoint_url, false)
  | .clientError => (endpoint_url, false)

/-- The escalation debounce interval of should_call_endpoint (lines
244-265): one minute, in seconds. -/
def escalation_min_interval : Int := 60

/-- The wake-on-LAN debounce interval (line 315): five minutes, in
seconds. -/
def wol_min_interval : Int := 300

/-- Embeds should_call_endpoint (lines 244-265; Python name with a leading
underscore): fire when the key was never stamped or at least one minute
has passed since its stamp; the function only reads, never writes. -/
def should_call_endpoint (last_request_sent : String → Option Int) (pattern : String)
    (current_time : Int) : Bool :=
  match last_request_sent pattern with
  | none => true
  | some last_seen => decide (escalation_min_interval ≤ current_time - last_seen)

/-- Mutable state of the monitor: the last_request_sent dict (which also
stores the wake-on-LAN debounce stamps under keys prefixed with the four
characters w o l underscore) and the active_patterns dict. -/
structure MonitorState where
  last_request_sent : String → Option Int
  active_patterns : String → Bool

/-- Result of one process_log_line call: the new state, whether the
escalation endpoint was called, and whether a wake-on-LAN packet was
sent. -/
structure ProcessOutcome where
  state : MonitorState
  endpoint_called : Bool
  wol_sent : Bool

/-- Embeds process_log_line (lines 281-322; Python name with a leading
underscore).  On a matched line, when the escalation debounce allows it:
mark the pattern active, stamp last_request_sent at the wall-clock time
now, call the endpoint, and if the call returned False and a wake MAC is
configured, send a wake-on-LAN packet under the separate debounce key
formed by prefixing the pattern, with its own five-minute interval.
Otherwise only mark the pattern active. -/
def process_log_line (config : List Rule) (search : String → String → Bool)
    (st : MonitorState) (parsed : Option ParsedLine) (now : Int)
    (outcome : HttpOutcome) (wol_mac_configured : Bool) : ProcessOutcome :=
  match parsed with
  | none => { state := st, endpoint_called := false, wol_sent := false }
  | some p =>
    match should_check_endpoint config search p.uri with
    | none => { state := st, endpoint_called := false, wol_sent := false }
    | some rule =>
      if should_call_endpoint st.last_request_sent rule.pattern now then
        let st1 : MonitorState :=
          { last_request_sent :=
              fun k => if k = rule.pattern then some now else st.last_request_sent k,
            active_patterns :=
              fun k => if k = rule.pattern then true else st.active_patterns k }
        let success := (check_endpoint rule (some p.status) outcome).2
        if !success && wol_mac_configured then
          let wol_debounce_key := "wol_" ++ rule.pattern
          let fire_wol := match st1.last_request_sent wol_debounce_key with
            | none => true
            | some wol_last_sent => decide (wol_min_interval ≤ now - wol_last_sent)
          if fire_wol then
            { state :=
                { st1 with last_request_sent :=
                    fun k => if k = wol_debounce_key then some now
                      else st1.last_request_sent k },
              endpoint_called := true, wol_sent := true }
          else
            { state := st1, endpoint_called := true, wol_sent := false }
        else
          { state := st1, endpoint_called := true, wol_sent := false }
      else
        { state :=
            { st with active_patterns :=
                fun k => if k = rule.pattern then true else st.active_patterns k },
          endpoint_called := false, wol_sent := false }

/-- The wake-on-LAN debounce key of a pattern is never the pattern
itself: the two debounce entries are distinct for every pattern. -/
theorem wol_key_ne (p : String) : "wol_" ++ p ≠ p := by
  intro h
  have hd : ('w' :: 'o' :: 'l' :: '_' :: p.data) = p.data := by
    have hdata := congrArg String.data h
    rw [String.data_append] at hdata
    exact hdata
  have hlen := congrArg List.length hd
  simp only [List.length_cons] at hlen
  omega

/-- When the escalation debounce allows the call, process_log_line reports
the endpoint called and stamps the debounce entry of the pattern with the
call time, whatever the outcome of the HTTP call and the wake
configuration. -/
theorem process_log_line_fire (config : List Rule) (search : String → String → Bool)
    (st : MonitorState) (p : ParsedLine) (now : Int) (outcome : HttpOutcome) (w : Bool)
    (rule : Rule)
    (hm : should_check_endpoint config search p.uri = some rule)
    (hs : should_call_endpoint st.last_request_sent rule.pattern now = true) :
    (process_log_line config search st (some p) now outcome w).endpoint_called = true ∧
    (process_log_line config search st (some p) now outcome w).state.last_request_sent
      rule.pattern = some now := by
  rw [process_log_line, hm]
  dsimp only
  rw [if_pos hs]
  have hkey : ¬("wol_" ++ rule.pattern = rule.pattern) := wol_key_ne rule.pattern
  simp only [if_neg hkey]
  constructor
  · split
    · split
      · rfl
      · rfl
    · rfl
  · split
    · split
      · dsimp only
        rw [if_neg (fun hcontra => hkey hcontra.symm), if_pos rfl]
      · dsimp only
        rw [if_pos rfl]
    · dsimp only
      rw [if_pos rfl]

/-- When the escalation debounce suppresses the call, process_log_line
reports no endpoint call and leaves the whole debounce table unchanged
(only the active-patterns flag is set). -/
theorem process_log_line_nofire (config : List Rule) (search : String → String → Bool)
    (st : MonitorState) (p : ParsedLine) (now : Int) (outcome : HttpOutcome) (w : Bool)
    (rule : Rule)
    (hm : should_check_endpoint config search p.uri = some rule)
    (hs : should_call_endpoint st.last_request_sent rule.pattern now = false) :
    (process_log_line config search st (some p) now outcome w).endpoint_called = false ∧
    (process_log_line config search st (some p) now outcome w).state.last_request_sent
      = st.last_request_sent := by
  rw [process_log_line, hm]
  dsimp only
  rw [if_neg (by intro hc; rw [hs] at hc; exact Bool.noConfusion hc)]
  exact ⟨rfl, rfl⟩

/-- The three-call sequence of the debounce claim: calls at t0, t0 plus
epsilon, and t0 plus the minimum interval plus epsilon, each threaded
through the state left by the previous call. -/
def debounce_three_calls (config : List Rule) (search : String → String → Bool)
    (st0 : MonitorState) (p1 p2 p3 : ParsedLine) (t0 ε : Int)
    (o1 o2 o3 : HttpOutcome) (w : Bool) :
    ProcessOutcome × ProcessOutcome × ProcessOutcome :=
  let r1 := process_log_line config search st0 (some p1) t0 o1 w
  let r2 := process_log_line config search r1.state (some p2) (t0 + ε) o2 w
  let r3 := process_log_line config search r2.state (some p3)
    (t0 + escalation_min_interval + ε) o3 w
  (r1, r2, r3)

/-- Any HTTP response, whatever its status code, makes check_endpoint
return True (both the 200 branch and the non-200 branch return True). -/
theorem check_endpoint_response (rule : Rule) (sc : Option Int) (s : Int) :
    (check_endpoint rule sc (.response s)).2 = true := by
  rw [check_endpoint.eq_def]
  dsimp only
  split <;> rfl

/-- A timeout or a client error makes check_endpoint return False. -/
theorem check_endpoint_failure (rule : Rule) (sc : Option Int)
    (outcome : HttpOutcome)
    (hout : outcome = .timeout ∨ outcome = .clientError) :
    (check_endpoint rule sc outcome).2 = false := by
  rcases hout with rfl | rfl <;> rfl

end NginxMonitor

/-- C7 counterexample.  The claim says a non-2xx response to the
escalation call triggers a wake action when a wake MAC is configured.  In
the code check_endpoint returns True for any HTTP response, including a
500, so the wake branch is not taken: with a configured MAC and a fresh
state, a matched line whose escalation call receives a 500 response calls
the endpoint but sends no wake-on-LAN packet. -/
theorem C7_counterexample :
    (NginxMonitor.check_endpoint
      { pattern := "A", endpoint := "http://e", status_endpoints := fun _ => none }
      (some 500) (.response 500)).2 = true ∧
    (NginxMonitor.process_log_line
      [{ pattern := "A", endpoint := "http://e", status_endpoints := fun _ => none }]
      (fun p u => p == u)
      { last_request_sent := fun _ => none, active_patterns := fun _ => false }
      (some { uri := "A", status := 500 }) 0 (.response 500) true).endpoint_called
      = true ∧
    (NginxMonitor.process_log_line
      [{ pattern := "A", endpoint := "http://e", status_endpoints := fun _ => none }]
      (fun p u => p == u)
      { last_request_sent := fun _ => none, active_patterns := fun _ => false }
      (some { uri := "A", status := 500 }) 0 (.response 500) true).wol_sent
      = false :=
  ⟨rfl, rfl, rfl⟩

/-- C7 amended: a wake action is triggered exactly on escalation attempts
that fail by timeout or network error (a non-2xx response is treated as
success and never wakes, and no HTTP response of any status wakes); the
wake is debounced under its own key, the pattern prefixed with four
characters, which differs from the escalation key for every pattern, with
its own five-minute interval, longer than the one-minute escalation
interval, and a wake within that interval of the previous one is
suppressed. -/
theorem C7_wake_on_failure :
    (∀ (config : List NginxMonitor.Rule) (search : String → String → Bool)
      (st : NginxMonitor.MonitorState) (p : NginxMonitor.ParsedLine) (now s : Int)
      (w : Bool),
      (NginxMonitor.process_log_line config search st (some p) now
        (.response s) w).wol_sent = false) ∧
    (∀ (config : List NginxMonitor.Rule) (search : String → String → Bool)
      (st : NginxMonitor.MonitorState) (p : NginxMonitor.ParsedLine) (now : Int)
      (outcome : NginxMonitor.HttpOutcome) (rule : NginxMonitor.Rule),
      NginxMonitor.should_check_endpoint config search p.uri = some rule →
      NginxMonitor.should_call_endpoint st.last_request_sent rule.pattern now = true →
      (outcome = .timeout ∨ outcome = .clientError) →
      st.last_request_sent ("wol_" ++ rule.pattern) = none →
      (NginxMonitor.process_log_line config search st (some p) now outcome
        true).wol_sent = true ∧
      (NginxMonitor.process_log_line config search st (some p) now outcome
        true).endpoint_called = true ∧
      (NginxMonitor.process_log_line config search st (some p) now outcome
        true).state.last_request_sent ("wol_" ++ rule.pattern) = some now ∧
      (NginxMonitor.process_log_line config search st (some p) now outcome
        true).state.last_request_sent rule.pattern = some now) ∧
    (∀ (config : List NginxMonitor.Rule) (search : String → String → Bool)
      (st : NginxMonitor.MonitorState) (p : NginxMonitor.ParsedLine) (now wl : Int)
      (outcome : NginxMonitor.HttpOutcome) (rule : NginxMonitor.Rule),
      NginxMonitor.should_check_endpoint config search p.uri = some rule →
      NginxMonitor.should_call_endpoint st.last_request_sent rule.pattern now = true →
      (outcome = .timeout ∨ outcome = .clientError) →
      st.last_request_sent ("wol_" ++ rule.pattern) = some wl →
      now - wl < NginxMonitor.wol_min_interval →
      (NginxMonitor.process_log_line config search st (some p) now outcome
        true).wol_sent = false) ∧
    (∀ q : String, "wol_" ++ q ≠ q) ∧
    NginxMonitor.escalation_min_interval < NginxMonitor.wol_min_interval := by
  refine ⟨?_, ?_, ?_, NginxMonitor.wol_key_ne, by decide⟩
  · intro config search st p now s w
    rw [NginxMonitor.process_log_line]
    cases hm : NginxMonitor.should_check_endpoint config search p.uri with
    | none => rfl
    | some rule =>
      dsimp only
      by_cases hs : NginxMonitor.should_call_endpoint st.last_request_sent
        rule.pattern now = true
      · rw [if_pos hs]
        rw [if_neg (show ¬ ((!(NginxMonitor.check_endpoint rule (some p.status)
            (.response s)).2 && w) = true) by
          rw [NginxMonitor.check_endpoint_response]
          simp)]
      · rw [if_neg hs]
  · intro config search st p now outcome rule hm hs hout hfresh
    rw [NginxMonitor.process_log_line, hm]
    dsimp only
    rw [if_pos hs]
    have hkey : ¬ ("wol_" ++ rule.pattern = rule.pattern) :=
      NginxMonitor.wol_key_ne rule.pattern
    simp only [if_neg hkey]
    rw [if_pos (show (!(NginxMonitor.check_endpoint rule (some p.status)
        outcome).2 && true) = true by
      rw [NginxMonitor.check_endpoint_failure rule (some p.status) outcome hout]
      rfl)]
    rw [hfresh]
    dsimp only
    rw [if_pos rfl]
    refine ⟨rfl, rfl, ?_, ?_⟩
    · dsimp only
      rw [if_pos rfl]
    · dsimp only
      rw [if_neg (fun hcontra => hkey hcontra.symm), if_pos rfl]
  · intro config search st p now wl outcome rule hm hs hout hwl hlt
    rw [NginxMonitor.process_log_line, hm]
    dsimp only
    rw [if_pos hs]
    have hkey : ¬ ("wol_" ++ rule.pattern = rule.pattern) :=
      NginxMonitor.wol_key_ne rule.pattern
    simp only [if_neg hkey]
    rw [if_pos (show (!(NginxMonitor.check_endpoint rule (some p.status)
        outcome).2 && true) = true by
      rw [NginxMonitor.check_endpoint_failure rule (some p.status) outcome hout]
      rfl)]
    rw [hwl]
    dsimp only
    rw [if_neg (show ¬ (decide (NginxMonitor.wol_min_interval ≤ now - wl) = true) by
      simp only [decide_eq_true_iff]
      omega)]

/-- C7 witness: the failure branch of the amended theorem applied to a
concrete timeout with a configured MAC and a fresh state: the wake fires
and is stamped under its own key. -/
theorem C7_wake_on_failure_witness :
    (NginxMonitor.process_log_line
      [{ pattern := "A", endpoint := "http://e", status_endpoints := fun _ => none }]
      (fun p u => p == u)
      { last_request_sent := fun _ => none, active_patterns := fun _ => false }
      (some { uri := "A", status := 500 }) 0 .timeout true).wol_sent = true :=
  (C7_wake_on_failure.2.1
    [{ pattern := "A", endpoint := "http://e", status_endpoints := fun _ => none }]
    (fun p u => p == u)
    { last_request_sent := fun _ => none, active_patterns := fun _ => false }
    { uri := "A", status := 500 } 0 .timeout
    { pattern := "A", endpoint := "http://e", status_endpoints := fun _ => none }
    rfl rfl (Or.inl rfl) rfl).1

/-- C3: for a pattern with no prior debounce stamp, three matched calls at
times t0, t0 plus epsilon and t0 plus the one-minute interval plus epsilon
(with epsilon strictly between 0 and one minute) behave as claimed: the
first and third calls fire and stamp the debounce entry with their call
time, the second is suppressed and leaves the debounce table unchanged. -/
theorem C3_debounce (config : List NginxMonitor.Rule)
    (search : String → String → Bool) (st0 : NginxMonitor.MonitorState)
    (p1 p2 p3 : NginxMonitor.ParsedLine) (rule : NginxMonitor.Rule) (t0 ε : Int)
    (o1 o2 o3 : NginxMonitor.HttpOutcome) (w : Bool)
    (hm1 : NginxMonitor.should_check_endpoint config search p1.uri = some rule)
    (hm2 : NginxMonitor.should_check_endpoint config search p2.uri = some rule)
    (hm3 : NginxMonitor.should_check_endpoint config search p3.uri = some rule)
    (hfresh : st0.last_request_sent rule.pattern = none)
    (hε0 : 0 < ε) (hε : ε < NginxMonitor.escalation_min_interval) :
    (NginxMonitor.debounce_three_calls config search st0 p1 p2 p3 t0 ε o1 o2 o3
        w).1.endpoint_called = true ∧
    (NginxMonitor.debounce_three_calls config search st0 p1 p2 p3 t0 ε o1 o2 o3
        w).1.state.last_request_sent rule.pattern = some t0 ∧
    (NginxMonitor.debounce_three_calls config search st0 p1 p2 p3 t0 ε o1 o2 o3
        w).2.1.endpoint_called = false ∧
    (NginxMonitor.debounce_three_calls config search st0 p1 p2 p3 t0 ε o1 o2 o3
        w).2.1.state.last_request_sent =
      (NginxMonitor.debounce_three_calls config search st0 p1 p2 p3 t0 ε o1 o2 o3
        w).1.state.last_request_sent ∧
    (NginxMonitor.debounce_three_calls config search st0 p1 p2 p3 t0 ε o1 o2 o3
        w).2.2.endpoint_called = true ∧
    (NginxMonitor.debounce_three_calls config search st0 p1 p2 p3 t0 ε o1 o2 o3
        w).2.2.state.last_request_sent rule.pattern
      = some (t0 + NginxMonitor.escalation_min_interval + ε) := by
  rw [NginxMonitor.debounce_three_calls]
  have hs1 : NginxMonitor.should_call_endpoint st0.last_request_sent rule.pattern t0
      = true := by
    rw [NginxMonitor.should_call_endpoint, hfresh]
  obtain ⟨hc1, hstamp1⟩ := NginxMonitor.process_log_line_fire config search st0 p1 t0
    o1 w rule hm1 hs1
  have hs2 : NginxMonitor.should_call_endpoint
      (NginxMonitor.process_log_line config search st0 (some p1) t0 o1
        w).state.last_request_sent rule.pattern (t0 + ε) = false := by
    rw [NginxMonitor.should_call_endpoint, hstamp1]
    simp only [decide_eq_false_iff_not, NginxMonitor.escalation_min_interval]
    simp only [NginxMonitor.escalation_min_interval] at hε
    omega
  obtain ⟨hc2, hstate2⟩ := NginxMonitor.process_log_line_nofire config search _ p2
    (t0 + ε) o2 w rule hm2 hs2
  have hstamp2 : (NginxMonitor.process_log_line config search
      (NginxMonitor.process_log_line config search st0 (some p1) t0 o1 w).state
      (some p2) (t0 + ε) o2 w).state.last_request_sent rule.pattern = some t0 := by
    rw [hstate2, hstamp1]
  have hs3 : NginxMonitor.should_call_endpoint
      (NginxMonitor.process_log_line config search
        (NginxMonitor.process_log_line config search st0 (some p1) t0 o1 w).state
        (some p2) (t0 + ε) o2 w).state.last_request_sent rule.pattern
      (t0 + NginxMonitor.escalation_min_interval + ε) = true := by
    rw [NginxMonitor.should_call_endpoint, hstamp2]
    simp only [decide_eq_true_iff, NginxMonitor.escalation_min_interval]
    omega
  obtain ⟨hc3, hstamp3⟩ := NginxMonitor.process_log_line_fire config search _ p3
    (t0 + NginxMonitor.escalation_min_interval + ε) o3 w rule hm3 hs3
  exact ⟨hc1, hstamp1, hc2, hstate2, hc3, hstamp3⟩

/-- C3 witness: the debounce theorem applied to a one-rule configuration,
an initially empty table, calls at times 0, 30 and 90 (epsilon 30
seconds). -/
theorem C3_debounce_witness :
    (NginxMonitor.debounce_three_calls
      [{ pattern := "A", endpoint := "http://e", status_endpoints := fun _ => none }]
      (fun p u => p == u)
      { last_request_sent := fun _ => none, active_patterns := fun _ => false }
      { uri := "A", status := 200 } { uri := "A", status := 200 }
      { uri := "A", status := 200 } 0 30 (.response 200) (.response 200)
      (.response 200) false).1.endpoint_called = true :=
  (C3_debounce
    [{ pattern := "A", endpoint := "http://e", status_endpoints := fun _ => none }]
    (fun p u => p == u)
    { last_request_sent := fun _ => none, active_patterns := fun _ => false }
    { uri := "A", status := 200 } { uri := "A", status := 200 }
    { uri := "A", status := 200 }
    { pattern := "A", endpoint := "http://e", status_endpoints := fun _ => none }
    0 30 (.response 200) (.response 200) (.response 200) false
    rfl rfl rfl rfl (by decide) (by decide)).1

namespace ModelStarter

/-- Progress of one caller through handle_model_request
(src/model-starter/model_starter.py lines 99-131).  The handler awaits
check_model_running, then, when the answer was false, awaits start_model
(and the readiness wait), then responds.  Each await is a suspension point
of the single-threaded event loop, so steps of different callers
interleave. -/
inductive Phase where
  | toCheck
  | toStart
  | finished
deriving DecidableEq

/-- True exactly for the finished phase. -/
def isFinished : Phase → Bool
  | .finished => true
  | _ => false

/-- The shared world of the interleaving model: whether the inference
server reports a model running, how many times start_model has been
invoked, and the phase of each caller.  start_model is modelled as making
the model running (its effect on the inference server) and the readiness
wait then succeeds; this is the most favorable execution for the claim,
and the start count is still not one. -/
structure GateState where
  running : Bool
  startCount : Nat
  callers : List Phase
deriving DecidableEq

/-- One step of caller i, mirroring handle_model_request: a caller at its
check reads the shared running flag and either proceeds straight to its
response (already active) or moves on to start the model; a caller at its
start invokes start_model (counted) after which the model reports
running; a finished caller does nothing. -/
def stepCaller (s : GateState) (i : Nat) : GateState :=
  match s.callers[i]? with
  | none => s
  | some .finished => s
  | some .toCheck =>
    if s.running = true then { s with callers := s.callers.set i Phase.finished }
    else { s with callers := s.callers.set i Phase.toStart }
  | some .toStart =>
    { running := true, startCount := s.startCount + 1,
      callers := s.callers.set i Phase.finished }

/-- Run a schedule: at each tick the named caller takes its next step. -/
def run (s : GateState) : List Nat → GateState
  | [] => s
  | i :: sched => run (stepCaller s i) sched

/-- N callers arriving concurrently while the resource is cold: nothing
running, no start yet issued, every caller about to perform its check. -/
def initState (n : Nat) : GateState :=
  { running := false, startCount := 0, callers := List.replicate n Phase.toCheck }

/-- Replacing the element at a present index changes a countP tally by
swapping the contribution of the old element for that of the new one. -/
theorem countP_set_aux {α : Type} (q : α → Bool) :
    ∀ (l : List α) (i : Nat) (a b : α), l[i]? = some a →
      (l.set i b).countP q + (if q a then 1 else 0)
        = l.countP q + (if q b then 1 else 0) := by
  intro l
  induction l with
  | nil => intro i a b h; cases h
  | cons x xs ih =>
    intro i a b h
    cases i with
    | zero =>
      rw [List.getElem?_cons_zero] at h
      injection h with h
      subst h
      rw [List.set_cons_zero, List.countP_cons, List.countP_cons]
      omega
    | succ j =>
      rw [List.getElem?_cons_succ] at h
      rw [List.set_cons_succ, List.countP_cons, List.countP_cons]
      have := ih j a b h
      omega

/-- Each step preserves the invariant that the number of start invocations
is at most the number of finished callers: a caller increments the count
only on the step that also finishes it. -/
theorem step_start_le (s : GateState) (i : Nat)
    (h : s.startCount ≤ s.callers.countP isFinished) :
    (stepCaller s i).startCount ≤ (stepCaller s i).callers.countP isFinished := by
  rw [stepCaller]
  cases hc : s.callers[i]? with
  | none => exact h
  | some ph =>
    cases ph with
    | finished => exact h
    | toCheck =>
      by_cases hr : s.running = true
      · rw [if_pos hr]
        have h2 : (s.callers.set i Phase.finished).countP isFinished + 0
            = s.callers.countP isFinished + 1 :=
          countP_set_aux isFinished s.callers i Phase.toCheck Phase.finished hc
        dsimp only
        omega
      · rw [if_neg hr]
        have h2 : (s.callers.set i Phase.toStart).countP isFinished + 0
            = s.callers.countP isFinished + 0 :=
          countP_set_aux isFinished s.callers i Phase.toCheck Phase.toStart hc
        dsimp only
        omega
    | toStart =>
      have h2 : (s.callers.set i Phase.finished).countP isFinished + 0
          = s.callers.countP isFinished + 1 :=
        countP_set_aux isFinished s.callers i Phase.toStart Phase.finished hc
      dsimp only
      omega

/-- Each step preserves the number of callers. -/
theorem step_length (s : GateState) (i : Nat) :
    (stepCaller s i).callers.length = s.callers.length := by
  rw [stepCaller]
  cases hc : s.callers[i]? with
  | none => rfl
  | some ph =>
    cases ph with
    | finished => rfl
    | toCheck =>
      by_cases hr : s.running = true
      · rw [if_pos hr]
        exact List.length_set s.callers i Phase.finished
      · rw [if_neg hr]
        exact List.length_set s.callers i Phase.toStart
    | toStart => exact List.length_set s.callers i Phase.finished

/-- Runs preserve the number of callers. -/
theorem run_length (sched : List Nat) : ∀ s : GateState,
    (run s sched).callers.length = s.callers.length := by
  induction sched with
  | nil => intro s; rfl
  | cons j rest ih =>
    intro s
    rw [run, ih (stepCaller s j), step_length]

/-- Runs preserve the start-count invariant. -/
theorem run_start_le (sched : List Nat) : ∀ s : GateState,
    s.startCount ≤ s.callers.countP isFinished →
    (run s sched).startCount ≤ (run s sched).callers.countP isFinished := by
  induction sched with
  | nil => intro s h; exact h
  | cons j rest ih =>
    intro s h
    rw [run]
    exact ih (stepCaller s j) (step_start_le s j h)

/-- The state of a system in which start_model has never been invoked:
nothing reports running and no caller has finished. -/
def untouched (s : GateState) : Prop :=
  s.running = false ∧ ∀ p ∈ s.callers, p ≠ Phase.finished

/-- Each step preserves the fact that a zero start count only coexists
with an untouched system: a caller can only finish by starting the model
itself or by observing a running flag some start already set. -/
theorem step_zero (s : GateState) (i : Nat)
    (h : s.startCount = 0 → untouched s) :
    (stepCaller s i).startCount = 0 → untouched (stepCaller s i) := by
  cases hc : s.callers[i]? with
  | none =>
    have hstep : stepCaller s i = s := by rw [stepCaller, hc]
    rw [hstep]
    exact h
  | some ph =>
    cases ph with
    | finished =>
      have hstep : stepCaller s i = s := by rw [stepCaller, hc]
      rw [hstep]
      exact h
    | toCheck =>
      by_cases hr : s.running = true
      · have hstep : stepCaller s i
            = { s with callers := s.callers.set i Phase.finished } := by
          rw [stepCaller, hc]
          dsimp only
          rw [if_pos hr]
        rw [hstep]
        intro h0
        have hu := h h0
        rw [hu.1] at hr
        exact absurd hr Bool.false_ne_true
      · have hstep : stepCaller s i
            = { s with callers := s.callers.set i Phase.toStart } := by
          rw [stepCaller, hc]
          dsimp only
          rw [if_neg hr]
        rw [hstep]
        intro h0
        have hu := h h0
        refine ⟨hu.1, ?_⟩
        intro p hp
        rcases List.mem_or_eq_of_mem_set hp with hmem | rfl
        · exact hu.2 p hmem
        · exact fun hcontra => Phase.noConfusion hcontra
    | toStart =>
      have hstep : stepCaller s i
          = { running := true, startCount := s.startCount + 1,
              callers := s.callers.set i Phase.finished } := by
        rw [stepCaller, hc]
      rw [hstep]
      intro h0
      exact absurd h0 (Nat.succ_ne_zero _)

/-- Runs preserve the zero-start-count invariant. -/
theorem run_zero (sched : List Nat) : ∀ s : GateState,
    (s.startCount = 0 → untouched s) →
    ((run s sched).startCount = 0 → untouched (run s sched)) := by
  induction sched with
  | nil => intro s h; exact h
  | cons j rest ih =>
    intro s h
    rw [run]
    exact ih (stepCaller s j) (step_zero s j h)

/-- How many more scheduled turns a caller in a given phase needs before
it is finished. -/
def stepsNeeded : Phase → Nat
  | .toCheck => 2
  | .toStart => 1
  | .finished => 0

/-- A caller scheduled at least as many times as its phase still needs is
finished at the end of the run. -/
theorem run_finishes (sched : List Nat) : ∀ (s : GateState) (i : Nat) (pi : Phase),
    s.callers[i]? = some pi → stepsNeeded pi ≤ sched.count i →
    (run s sched).callers[i]? = some Phase.finished := by
  induction sched with
  | nil =>
    intro s i pi hpi hcount
    rw [run]
    cases pi with
    | finished => exact hpi
    | toCheck => simp [stepsNeeded, List.count_nil] at hcount
    | toStart => simp [stepsNeeded, List.count_nil] at hcount
  | cons j rest ih =>
    intro s i pi hpi hcount
    rw [run]
    by_cases hij : j = i
    · subst hij
      obtain ⟨hlt, -⟩ := List.getElem?_eq_some_iff.mp hpi
      cases pi with
      | finished =>
        have hstep : stepCaller s j = s := by rw [stepCaller, hpi]
        rw [hstep]
        exact ih s j Phase.finished hpi (Nat.zero_le _)
      | toCheck =>
        have hcount' : 1 ≤ rest.count j := by
          rw [List.count_cons_self] at hcount
          simp only [stepsNeeded] at hcount
          omega
        by_cases hr : s.running = true
        · have hstep : stepCaller s j
              = { s with callers := s.callers.set j Phase.finished } := by
            rw [stepCaller, hpi]
            dsimp only
            rw [if_pos hr]
          rw [hstep]
          exact ih _ j Phase.finished (List.getElem?_set_self hlt) (Nat.zero_le _)
        · have hstep : stepCaller s j
              = { s with callers := s.callers.set j Phase.toStart } := by
            rw [stepCaller, hpi]
            dsimp only
            rw [if_neg hr]
          rw [hstep]
          exact ih _ j Phase.toStart (List.getElem?_set_self hlt) hcount'
      | toStart =>
        have hstep : stepCaller s j
            = { running := true, startCount := s.startCount + 1,
                callers := s.callers.set j Phase.finished } := by
          rw [stepCaller, hpi]
        rw [hstep]
        exact ih _ j Phase.finished (List.getElem?_set_self hlt) (Nat.zero_le _)
    · have hpi' : (stepCaller s j).callers[i]? = some pi := by
        cases hcj : s.callers[j]? with
        | none =>
          have hstep : stepCaller s j = s := by rw [stepCaller, hcj]
          rw [hstep]
          exact hpi
        | some pj =>
          cases pj with
          | finished =>
            have hstep : stepCaller s j = s := by rw [stepCaller, hcj]
            rw [hstep]
            exact hpi
          | toCheck =>
            by_cases hr : s.running = true
            · have hstep : stepCaller s j
                  = { s with callers := s.callers.set j Phase.finished } := by
                rw [stepCaller, hcj]
                dsimp only
                rw [if_pos hr]
              rw [hstep]
              dsimp only
              rw [List.getElem?_set_ne hij]
              exact hpi
            · have hstep : stepCaller s j
                  = { s with callers := s.callers.set j Phase.toStart } := by
                rw [stepCaller, hcj]
                dsimp only
                rw [if_neg hr]
              rw [hstep]
              dsimp only
              rw [List.getElem?_set_ne hij]
              exact hpi
          | toStart =>
            have hstep : stepCaller s j
                = { running := true, startCount := s.startCount + 1,
                    callers := s.callers.set j Phase.finished } := by
              rw [stepCaller, hcj]
            rw [hstep]
            dsimp only
            rw [List.getElem?_set_ne hij]
            exact hpi
      have hcount' : stepsNeeded pi ≤ rest.count i := by
        rw [List.count_cons_of_ne (fun hcontra => hij hcontra.symm)] at hcount
        exact hcount
      exact ih _ i pi hpi' hcount'

end ModelStarter

/-- C1 counterexample.  The claim says start is invoked exactly once when N
callers race on a cold resource.  handle_model_request has no lock and no
in-flight table: in the interleaving where both of two callers perform
their (awaited) running check before either starts, each observes
not-running and each invokes start_model, so start is invoked twice, not
once — even though both callers do reach a terminal response. -/
theorem C1_counterexample :
    (ModelStarter.run (ModelStarter.initState 2) [0, 1, 0, 1]).startCount = 2 ∧
    ¬ ((ModelStarter.run (ModelStarter.initState 2) [0, 1, 0, 1]).startCount = 1) ∧
    (ModelStarter.run (ModelStarter.initState 2) [0, 1, 0, 1]).callers
      = [ModelStarter.Phase.finished, ModelStarter.Phase.finished] := by
  refine ⟨rfl, by decide, rfl⟩

/-- C1 amended: under N concurrent requests for a cold resource the
handler, which has no single-flight guard, invokes start between 1 and N
times — at most once per caller, at least once as soon as any caller
completed (a caller finishes only by starting or by observing the effect
of a start) — and every caller scheduled at least twice reaches a
terminal response; exactly once is not guaranteed (see the two-caller
interleaving with two starts). -/
theorem C1_no_single_flight :
    (∀ (n : Nat) (sched : List Nat),
      (ModelStarter.run (ModelStarter.initState n) sched).startCount ≤ n) ∧
    (∀ (n : Nat) (sched : List Nat), 0 < n →
      (∀ p ∈ (ModelStarter.run (ModelStarter.initState n) sched).callers,
        p = ModelStarter.Phase.finished) →
      1 ≤ (ModelStarter.run (ModelStarter.initState n) sched).startCount) ∧
    (∀ (n : Nat) (sched : List Nat) (i : Nat), i < n → 2 ≤ sched.count i →
      (ModelStarter.run (ModelStarter.initState n) sched).callers[i]?
        = some ModelStarter.Phase.finished) := by
  have hlen : ∀ (n : Nat) (sched : List Nat),
      (ModelStarter.run (ModelStarter.initState n) sched).callers.length = n := by
    intro n sched
    rw [ModelStarter.run_length]
    exact List.length_replicate n ModelStarter.Phase.toCheck
  refine ⟨?_, ?_, ?_⟩
  · intro n sched
    have h1 := ModelStarter.run_start_le sched (ModelStarter.initState n)
      (Nat.zero_le _)
    have h2 : (ModelStarter.run (ModelStarter.initState n)
        sched).callers.countP ModelStarter.isFinished
        ≤ (ModelStarter.run (ModelStarter.initState n) sched).callers.length :=
      List.countP_le_length ModelStarter.isFinished
    have h3 := hlen n sched
    omega
  · intro n sched hn hall
    by_contra hlt
    have h0 : (ModelStarter.run (ModelStarter.initState n) sched).startCount = 0 := by
      omega
    have hz := ModelStarter.run_zero sched (ModelStarter.initState n)
      (fun _ => ⟨rfl, fun p hp => by
        rw [List.eq_of_mem_replicate hp]
        exact fun hcontra => ModelStarter.Phase.noConfusion hcontra⟩) h0
    obtain ⟨p, hp⟩ : ∃ p, p ∈ (ModelStarter.run (ModelStarter.initState n)
        sched).callers := by
      cases hcl : (ModelStarter.run (ModelStarter.initState n) sched).callers with
      | nil =>
        have h3 := hlen n sched
        rw [hcl] at h3
        simp at h3
        omega
      | cons a l => exact ⟨a, List.mem_cons_self a l⟩
    exact hz.2 p hp (hall p hp)
  · intro n sched i hi hcount
    apply ModelStarter.run_finishes sched (ModelStarter.initState n) i
      ModelStarter.Phase.toCheck ?_ (by simpa [ModelStarter.stepsNeeded] using hcount)
    show (List.replicate n ModelStarter.Phase.toCheck)[i]?
      = some ModelStarter.Phase.toCheck
    rw [List.getElem?_replicate]
    simp [hi]

/-- C1 witness: with two callers and the round-robin schedule, caller 0 is
scheduled twice and reaches a terminal response. -/
theorem C1_no_single_flight_witness :
    (ModelStarter.run (ModelStarter.initState 2) [0, 1, 0, 1]).callers[0]?
      = some ModelStarter.Phase.finished :=
  C1_no_single_flight.2.2 2 [0, 1, 0, 1] 0 (by decide) (by decide)

/-- C5 counterexample.  The claim says that with equal thresholds of 10
minutes, a resource whose age is exactly 10 minutes is classified Idle.  In
the code the idle comparison is strict, so at exactly the threshold
is_model_idle returns false (and is_model_active returns true): the
boundary instant is Active, not Idle. -/
theorem C5_counterexample :
    InferenceService.is_model_idle InferenceService.cfg10
      (fun m => if m = "modelA" then some 0 else none) 0 10 "modelA" = false ∧
    InferenceService.is_model_active InferenceService.cfg10
      (fun m => if m = "modelA" then some 0 else none) 0 10 "modelA" = true := by
  constructor <;> decide

/-- C5 amended: with activeThreshold = idleThreshold = 10 minutes, a
resource whose age is exactly 10 minutes is classified Active and not Idle
(the idle comparison is strict and the active comparison is non-strict),
and no resource is ever classified both Active and Idle at the same
instant. -/
theorem C5_idle_boundary (ledger : InferenceService.Ledger)
    (server_start_time now : Int) (m : String)
    (hage : now - InferenceService.get_last_activity ledger server_start_time m = 10) :
    InferenceService.is_model_active InferenceService.cfg10 ledger server_start_time now m
      = true ∧
    InferenceService.is_model_idle InferenceService.cfg10 ledger server_start_time now m
      = false ∧
    ∀ (ledger' : InferenceService.Ledger) (start' now' : Int) (m' : String),
      ¬ (InferenceService.is_model_active InferenceService.cfg10 ledger' start' now' m'
          = true ∧
        InferenceService.is_model_idle InferenceService.cfg10 ledger' start' now' m'
          = true) := by
  refine ⟨?_, ?_, ?_⟩
  · simp only [InferenceService.is_model_active, InferenceService.cfg10, decide_eq_true_iff]
    omega
  · simp only [InferenceService.is_model_idle, InferenceService.cfg10,
      decide_eq_false_iff_not]
    omega
  · intro ledger' start' now' m' ⟨ha, hi⟩
    simp only [InferenceService.is_model_active, InferenceService.is_model_idle,
      InferenceService.cfg10, decide_eq_true_iff] at ha hi
    omega

/-- C5 witness: the amended boundary theorem applied at a concrete input
whose age is exactly 10 minutes. -/
theorem C5_idle_boundary_witness :
    InferenceService.is_model_active InferenceService.cfg10
      (fun m => if m = "modelA" then some 0 else none) 0 10 "modelA" = true :=
  (C5_idle_boundary (fun m => if m = "modelA" then some 0 else none) 0 10 "modelA"
    (by decide)).1

/-- C6 counterexample.  The claim says that for every resource with no
recorded activity, lastSeen returns the service start time, so the resource
is not classified Idle until more than idleThreshold after start.  The
model monitor service (also cited by the claim) contradicts this: its
get_last_activity returns none for a never-seen model, and its
is_model_idle then returns true immediately — here at 5 minutes after a
start at time 0, with a 10-minute idle threshold. -/
theorem C6_counterexample :
    ModelMonitor.get_last_activity ModelMonitor.emptyLedger "modelA" = none ∧
    ModelMonitor.is_model_idle
      { active_threshold_minutes := 10, idle_threshold_minutes := 10 }
      ModelMonitor.emptyLedger 5 "modelA" = true := by
  constructor <;> rfl

/-- C6 amended: in the inference service (but not in the model monitor
service) a resource with no recorded activity has lastSeen equal to the
server start time, and with a 10-minute idle threshold it is not classified
Idle at start plus 5 minutes but is classified Idle at start plus 11
minutes. -/
theorem C6_boot_default (ledger : InferenceService.Ledger)
    (server_start_time : Int) (m : String) (hnone : ledger m = none) :
    InferenceService.get_last_activity ledger server_start_time m = server_start_time ∧
    InferenceService.is_model_idle InferenceService.cfg10 ledger server_start_time
      (server_start_time + 5) m = false ∧
    InferenceService.is_model_idle InferenceService.cfg10 ledger server_start_time
      (server_start_time + 11) m = true := by
  have hlast : InferenceService.get_last_activity ledger server_start_time m
      = server_start_time := by
    simp [InferenceService.get_last_activity, hnone]
  refine ⟨hlast, ?_, ?_⟩
  · simp only [InferenceService.is_model_idle, InferenceService.cfg10, hlast,
      decide_eq_false_iff_not]
    omega
  · simp only [InferenceService.is_model_idle, InferenceService.cfg10, hlast,
      decide_eq_true_iff]
    omega

/-- C6 witness: the boot-time default theorem applied to the empty ledger
with server start time 0. -/
theorem C6_boot_default_witness :
    InferenceService.get_last_activity InferenceService.emptyLedger 0 "modelA" = 0 :=
  (C6_boot_default InferenceService.emptyLedger 0 "modelA" rfl).1
